import Mathlib

/-!
Shallow embedding of the streaming delivery pipeline of `unrealon`
(`src/unrealon/parsers/upload.py`, class `StreamingUploader`) and of the
interrupt-aware iteration of `src/unrealon/runner.py` (`TaskRunner.iterate`).

Modelling conventions:
* A Python record (`dict`) is modelled by the only part the pipeline reads,
  the stringified `"id"` field (`str(item.get("id", ""))`); the rest of the
  payload is an opaque tag so that distinct records can be told apart.
* The injected `upload_func` is an external, possibly stateful collaborator.
  It is modelled by its call-indexed behaviour on each record:
  `UploadFunc : Item → Nat → CallOutcome`, where the second argument is the
  zero-based index of the call made for that record, and the outcome is
  either a normal return of the 4-tuple or a raised exception with message.
* The single background dispatcher thread of `_upload_worker` dequeues
  batches in FIFO order and runs `_upload_batch_sync` on each; this is
  modelled by processing the queued batches in list order.  Inside one
  batch, `ThreadPoolExecutor`/`as_completed` tallies results in an
  unspecified completion order; every per-result state update (counter
  increments and set insertion) commutes, so the model tallies in list
  order.
* `time.sleep` amounts are recorded in the trace instead of being waited.
-/

namespace Unrealon

/-- Config constant `PARALLEL_WORKERS = 3` from upload.py. -/
def PARALLEL_WORKERS : Nat := 3

/-- Config constant `MAX_RETRIES = 3` from upload.py. -/
def MAX_RETRIES : Nat := 3

/-- Config constant `RETRY_DELAY = 2.0` (seconds) from upload.py. -/
def RETRY_DELAY : ℚ := 2

/-- The `StreamingStats` dataclass: accumulated counters, all starting at 0. -/
structure StreamingStats where
  pages : Nat := 0
  items : Nat := 0
  success : Nat := 0
  failed : Nat := 0
  skipped : Nat := 0
  photos_added : Nat := 0
  photos_failed : Nat := 0
deriving Repr, DecidableEq

/-- A record handed to the pipeline: the pipeline only ever reads
`str(item.get("id", ""))`, modelled as `idField` (`none` when the key is
absent, `some s` for the stringified value); `payload` is an opaque tag that
lets distinct records with equal ids be told apart. -/
structure Item where
  idField : Option String
  payload : String := ""
deriving Repr, DecidableEq

/-- The value of `str(item.get("id", ""))` for a record. -/
def Item.itemId (it : Item) : String := it.idField.getD ""

/-- One call of the injected `upload_func`: either a normal return of
`(success, photos_added, photos_failed, error)` or a raised exception. -/
inductive CallOutcome where
  | ret (success : Bool) (photos_added photos_failed : Nat) (error : Option String)
  | exn (msg : String)
deriving Repr, DecidableEq

/-- The injected Delivery Function, modelled by its call-indexed behaviour
on each record: `f it k` is the outcome of the `(k+1)`-th call made for
record `it`. -/
def UploadFunc := Item → Nat → CallOutcome

/-- Helper for Python's substring operator `needle in hay` on strings,
working over the character lists. -/
def hasSubAux (needle : List Char) : List Char → Bool
  | [] => needle.isEmpty
  | c :: t => List.isPrefixOf needle (c :: t) || hasSubAux needle t

/-- Python's `needle in hay` substring test on strings. -/
def strHasSub (hay needle : String) : Bool :=
  hasSubAux needle.toList hay.toList

/-- Python's string slice `s[:n]` (by code point). -/
def strTruncate (s : String) (n : Nat) : String :=
  String.mk (s.toList.take n)

/-- The transient-error classification of `_upload_one` (upload.py line 162),
applied to the already-truncated `last_error = str(e)[:100]`:
`"502" in last_error or "503" in last_error or "504" in last_error`. -/
def isTransientMsg (s : String) : Bool :=
  strHasSub s "502" || strHasSub s "503" || strHasSub s "504"

/-- The 5-tuple `(item_id, success, photos_added, photos_failed, error)`
returned by `_upload_one`. -/
structure OneResult where
  item_id : String
  success : Bool
  photos_added : Nat
  photos_failed : Nat
  error : Option String
deriving Repr, DecidableEq

/-- The observable trace of one `_upload_one` run: its returned tuple, how
many times it invoked `upload_func`, and the `time.sleep` amounts (in
seconds) in order. -/
structure OneTrace where
  result : OneResult
  calls : Nat
  sleeps : List ℚ
deriving Repr, DecidableEq

/-- The retry loop body of `_upload_one` (upload.py lines 150-171).  The
loop `for attempt in range(MAX_RETRIES)` is modelled with the number of
remaining iterations (`fuel`, initially `MAX_RETRIES`) as the structural
recursion argument, next to the loop variable `attempt` itself (invariant:
`fuel = MAX_RETRIES - attempt`) and the accumulated `last_error`.  Each
iteration calls `upload_func` once: a `True` return is an immediate
success, a `False` return an immediate terminal failure, and an exception
is retried (after `sleep(RETRY_DELAY * (attempt + 1))`) only when the
truncated message matches the transient classification and
`attempt < MAX_RETRIES - 1`; otherwise the loop breaks and the truncated
message becomes the error. -/
def uploadOneGo (f : UploadFunc) (it : Item) :
    Nat → Nat → Option String → OneTrace
  | 0, _, lastError => ⟨⟨it.itemId, false, 0, 0, lastError⟩, 0, []⟩
  | fuel + 1, attempt, _ =>
      match f it attempt with
      | .ret true pa pf _ => ⟨⟨it.itemId, true, pa, pf, none⟩, 1, []⟩
      | .ret false _ _ err =>
          ⟨⟨it.itemId, false, 0, 0, some (err.getD "upload failed")⟩, 1, []⟩
      | .exn msg =>
          let le := strTruncate msg 100
          if isTransientMsg le && decide (attempt < MAX_RETRIES - 1) then
            let t := uploadOneGo f it fuel (attempt + 1) (some le)
            ⟨t.result, t.calls + 1,
              RETRY_DELAY * ((attempt : ℚ) + 1) :: t.sleeps⟩
          else
            ⟨⟨it.itemId, false, 0, 0, some le⟩, 1, []⟩

/-- `_upload_one`: upload a single record with retry (upload.py 142-171). -/
def uploadOne (f : UploadFunc) (it : Item) : OneTrace :=
  uploadOneGo f it MAX_RETRIES 0 none
/-- The mutable state of a `StreamingUploader` instance: the statistics, the
deduplication set `_existing_ids`, the `_session_started` flag, and the
contents of the background `_upload_queue` (batches not yet dequeued by the
dispatcher, in FIFO order, each with its `page_num`). -/
structure UploaderState where
  stats : StreamingStats
  existing_ids : Finset String
  session_started : Bool
  upload_queue : List (List Item × Nat)
deriving DecidableEq

/-- The state right after `__init__`: zero stats, empty deduplication set,
session not started, empty queue. -/
def initState : UploaderState :=
  ⟨{}, ∅, false, []⟩

/-- `add_existing_ids`: seed the deduplication set
(`self._existing_ids.update(ids)`, upload.py 133-136). -/
def add_existing_ids (st : UploaderState) (ids : Finset String) : UploaderState :=
  { st with existing_ids := st.existing_ids ∪ ids }

/-- `_should_skip`: membership test in the deduplication set
(upload.py 138-140). -/
def shouldSkip (st : UploaderState) (item_id : String) : Bool :=
  decide (item_id ∈ st.existing_ids)

/-- `upload_batch`: non-blocking enqueue (upload.py 204-219).  An empty item
list returns immediately; otherwise the session is marked started (starting
the dispatcher thread on the first call) and the batch is appended to the
queue. -/
def upload_batch (st : UploaderState) (items : List Item) (page_num : Nat) :
    UploaderState :=
  if items.isEmpty then st
  else
    { st with
      session_started := true,
      upload_queue := st.upload_queue ++ [(items, page_num)] }

/-- What the dispatcher records about one record of a dispatched batch:
either it was filtered out as a duplicate (never delivered), or it was
handed to a delivery worker, with the worker's `_upload_one` trace. -/
inductive ItemOutcome where
  | skipped (it : Item)
  | delivered (it : Item) (t : OneTrace)
deriving Repr, DecidableEq

/-- The record an outcome is about. -/
def ItemOutcome.item : ItemOutcome → Item
  | .skipped it => it
  | .delivered it _ => it

/-- Number of `upload_func` invocations behind an outcome. -/
def ItemOutcome.calls : ItemOutcome → Nat
  | .skipped _ => 0
  | .delivered _ t => t.calls

/-- The per-result tally of `_upload_batch_sync`'s `as_completed` loop
(upload.py 255-265): a success bumps `success` and the photo counters and
inserts the id into the deduplication set; a failure bumps `failed`. -/
def tallyOne (s : StreamingStats) (ids : Finset String) (r : OneResult) :
    StreamingStats × Finset String :=
  if r.success then
    ({ s with
        success := s.success + 1,
        photos_added := s.photos_added + r.photos_added,
        photos_failed := s.photos_failed + r.photos_failed },
      insert r.item_id ids)
  else
    ({ s with failed := s.failed + 1 }, ids)

/-- `_upload_batch_sync` (upload.py 221-276): bump `pages`; partition the
batch against the deduplication set as it stood at dispatch time, counting
the filtered records as `skipped`; if nothing is left, return; otherwise
bump `items` by the number of records to deliver, run `_upload_one` on each
in the worker pool, and tally every completed result.  The second component
is the per-record outcome list, in batch order.  (The `as_completed`
completion order is immaterial: each tally step commutes with the others.) -/
def upload_batch_sync (f : UploadFunc) (st : UploaderState)
    (items : List Item) (_page_num : Nat) : UploaderState × List ItemOutcome :=
  let s0 := { st.stats with pages := st.stats.pages + 1 }
  let toUpload := items.filter (fun it => !shouldSkip st it.itemId)
  let nSkip := (items.filter (fun it => shouldSkip st it.itemId)).length
  let s1 := { s0 with skipped := s0.skipped + nSkip }
  if toUpload.isEmpty then
    ({ st with stats := s1 }, items.map .skipped)
  else
    let s2 := { s1 with items := s1.items + toUpload.length }
    let tally := toUpload.foldl
      (fun acc it => tallyOne acc.1 acc.2 (uploadOne f it).result)
      (s2, st.existing_ids)
    let outcomes := items.map fun it =>
      if shouldSkip st it.itemId then .skipped it
      else .delivered it (uploadOne f it)
    ({ st with stats := tally.1, existing_ids := tally.2 }, outcomes)

/-- The dispatcher loop of `_upload_worker` processing a list of queued
batches in FIFO order, threading the state and concatenating the per-record
outcomes. -/
def processBatches (f : UploadFunc) (st : UploaderState) :
    List (List Item × Nat) → UploaderState × List ItemOutcome
  | [] => (st, [])
  | (items, p) :: rest =>
      let r1 := upload_batch_sync f st items p
      let r2 := processBatches f r1.1 rest
      (r2.1, r1.2 ++ r2.2)

/-- `abort` (upload.py 278-291): signal the stop event, drain the queue
discarding every still-queued batch without attempting it, and stop the
worker thread.  Statistics and the deduplication set are untouched. -/
def abortModel (st : UploaderState) : UploaderState :=
  { st with upload_queue := [] }

/-- `finish` (upload.py 293-311): with `force = true` it aborts, discarding
the queue; with `force = false` it blocks on `queue.join()`, i.e. every
queued batch is dispatched through `_upload_batch_sync` before the worker is
stopped and the final statistics returned.  The second component is the
trace of per-record outcomes produced while finishing. -/
def finishModel (f : UploadFunc) (st : UploaderState) (force : Bool) :
    UploaderState × List ItemOutcome :=
  if force then (abortModel st, [])
  else
    processBatches f { st with upload_queue := [] } st.upload_queue

/-!
Model of `TaskRunner.iterate` (runner.py 97-131).  The Cancellation Source
is modelled by `stopAt : Nat → Bool`: the `k`-th `check_interrupt()` call of
the run (zero-based) raises `StopInterrupt` exactly when `stopAt k` is true
(a pause that ends in resume is invisible here — the check then returns
normally; a pause that ends in stop is a true answer).  `iterRun stopAt i xs`
consumes the remaining sequence `xs`, with `i` checks already performed, and
returns the list of yielded elements in order, the number of checks
performed, and whether the run was stopped early.
-/

/-- `TaskRunner.iterate`: before yielding each element, `check_interrupt()`
runs; a stop unwinds the generator, discarding the rest of the sequence. -/
def iterRun (stopAt : Nat → Bool) : Nat → List α → List α × Nat × Bool
  | _, [] => ([], 0, false)
  | i, x :: rest =>
      if stopAt i then ([], 1, true)
      else
        let r := iterRun stopAt (i + 1) rest
        (x :: r.1, r.2.1 + 1, r.2.2)

/-! ### Helper lemmas -/

/-- Pointwise order on statistics: every counter of `a` is at most the
corresponding counter of `b`. -/
def StreamingStats.le (a b : StreamingStats) : Prop :=
  a.pages ≤ b.pages ∧ a.items ≤ b.items ∧ a.success ≤ b.success ∧
  a.failed ≤ b.failed ∧ a.skipped ≤ b.skipped ∧
  a.photos_added ≤ b.photos_added ∧ a.photos_failed ≤ b.photos_failed

theorem StreamingStats.le_refl (a : StreamingStats) : a.le a :=
  ⟨Nat.le_refl _, Nat.le_refl _, Nat.le_refl _, Nat.le_refl _, Nat.le_refl _,
   Nat.le_refl _, Nat.le_refl _⟩

theorem StreamingStats.le_trans {a b c : StreamingStats}
    (h1 : a.le b) (h2 : b.le c) : a.le c :=
  ⟨Nat.le_trans h1.1 h2.1, Nat.le_trans h1.2.1 h2.2.1,
   Nat.le_trans h1.2.2.1 h2.2.2.1, Nat.le_trans h1.2.2.2.1 h2.2.2.2.1,
   Nat.le_trans h1.2.2.2.2.1 h2.2.2.2.2.1,
   Nat.le_trans h1.2.2.2.2.2.1 h2.2.2.2.2.2.1,
   Nat.le_trans h1.2.2.2.2.2.2 h2.2.2.2.2.2.2⟩

theorem tallyOne_le (s : StreamingStats) (ids : Finset String) (r : OneResult) :
    s.le (tallyOne s ids r).1 ∧ ids ⊆ (tallyOne s ids r).2 := by
  unfold tallyOne
  split
  · exact ⟨⟨Nat.le_refl _, Nat.le_refl _, Nat.le_succ _, Nat.le_refl _,
      Nat.le_refl _, Nat.le_add_right _ _, Nat.le_add_right _ _⟩,
      Finset.subset_insert _ _⟩
  · exact ⟨⟨Nat.le_refl _, Nat.le_refl _, Nat.le_refl _, Nat.le_succ _,
      Nat.le_refl _, Nat.le_refl _, Nat.le_refl _⟩, Finset.Subset.refl _⟩

theorem tallyFold_le (g : Item → OneResult) (l : List Item) :
    ∀ p : StreamingStats × Finset String,
      p.1.le (l.foldl (fun acc it => tallyOne acc.1 acc.2 (g it)) p).1 ∧
      p.2 ⊆ (l.foldl (fun acc it => tallyOne acc.1 acc.2 (g it)) p).2 := by
  induction l with
  | nil => exact fun p => ⟨StreamingStats.le_refl _, Finset.Subset.refl _⟩
  | cons x xs ih =>
      intro p
      have h1 := tallyOne_le p.1 p.2 (g x)
      have h2 := ih (tallyOne p.1 p.2 (g x))
      exact ⟨StreamingStats.le_trans h1.1 h2.1, Finset.Subset.trans h1.2 h2.2⟩

theorem uploadOneGo_ret_true (f : UploadFunc) (it : Item) (n a : Nat)
    (le : Option String) (pa pf : Nat) (e : Option String)
    (he : f it a = .ret true pa pf e) :
    uploadOneGo f it (n + 1) a le = ⟨⟨it.itemId, true, pa, pf, none⟩, 1, []⟩ := by
  rw [uploadOneGo, he]

theorem uploadOneGo_ret_false (f : UploadFunc) (it : Item) (n a : Nat)
    (le : Option String) (pa pf : Nat) (e : Option String)
    (he : f it a = .ret false pa pf e) :
    uploadOneGo f it (n + 1) a le =
      ⟨⟨it.itemId, false, 0, 0, some (e.getD "upload failed")⟩, 1, []⟩ := by
  rw [uploadOneGo, he]

theorem uploadOneGo_exn_retry (f : UploadFunc) (it : Item) (n a : Nat)
    (le : Option String) (msg : String)
    (he : f it a = .exn msg)
    (htr : isTransientMsg (strTruncate msg 100) = true)
    (ha2 : a < MAX_RETRIES - 1) :
    uploadOneGo f it (n + 1) a le =
      ⟨(uploadOneGo f it n (a + 1) (some (strTruncate msg 100))).result,
       (uploadOneGo f it n (a + 1) (some (strTruncate msg 100))).calls + 1,
       RETRY_DELAY * ((a : ℚ) + 1) ::
         (uploadOneGo f it n (a + 1) (some (strTruncate msg 100))).sleeps⟩ := by
  rw [uploadOneGo, he]
  simp only [htr, decide_eq_true ha2, Bool.and_self, if_pos]

theorem uploadOneGo_exn_stop (f : UploadFunc) (it : Item) (n a : Nat)
    (le : Option String) (msg : String)
    (he : f it a = .exn msg)
    (hno : isTransientMsg (strTruncate msg 100) = false ∨ ¬a < MAX_RETRIES - 1) :
    uploadOneGo f it (n + 1) a le =
      ⟨⟨it.itemId, false, 0, 0, some (strTruncate msg 100)⟩, 1, []⟩ := by
  rw [uploadOneGo, he]
  rcases hno with hno | hno
  · simp only [hno, Bool.false_and, if_neg Bool.false_ne_true]
  · simp only [decide_eq_false hno, Bool.and_false, if_neg Bool.false_ne_true]

theorem uploadOneGo_calls_pos (f : UploadFunc) (it : Item) (n a : Nat)
    (le : Option String) :
    1 ≤ (uploadOneGo f it (n + 1) a le).calls := by
  rcases he : f it a with ⟨b, pa, pf, e⟩ | msg
  · cases b
    · rw [uploadOneGo_ret_false f it n a le pa pf e he]
    · rw [uploadOneGo_ret_true f it n a le pa pf e he]
  · by_cases htr : isTransientMsg (strTruncate msg 100) = true
    · by_cases ha2 : a < MAX_RETRIES - 1
      · rw [uploadOneGo_exn_retry f it n a le msg he htr ha2]
        exact Nat.le_add_left 1 _
      · rw [uploadOneGo_exn_stop f it n a le msg he (Or.inr ha2)]
    · rw [uploadOneGo_exn_stop f it n a le msg he
        (Or.inl (Bool.eq_false_iff.mpr htr))]

theorem uploadOne_calls_pos (f : UploadFunc) (it : Item) :
    1 ≤ (uploadOne f it).calls :=
  uploadOneGo_calls_pos f it 2 0 none

theorem uploadOneGo_congr (f g : UploadFunc) (it : Item)
    (h : ∀ k, f it k = g it k) :
    ∀ n a le, uploadOneGo f it n a le = uploadOneGo g it n a le := by
  intro n
  induction n with
  | zero => intro a le; rw [uploadOneGo, uploadOneGo]
  | succ n ih =>
      intro a le
      rcases he : g it a with ⟨b, pa, pf, e⟩ | msg
      · have hf : f it a = .ret b pa pf e := (h a).trans he
        cases b
        · rw [uploadOneGo_ret_false f it n a le pa pf e hf,
            uploadOneGo_ret_false g it n a le pa pf e he]
        · rw [uploadOneGo_ret_true f it n a le pa pf e hf,
            uploadOneGo_ret_true g it n a le pa pf e he]
      · have hf : f it a = .exn msg := (h a).trans he
        by_cases htr : isTransientMsg (strTruncate msg 100) = true
        · by_cases ha2 : a < MAX_RETRIES - 1
          · rw [uploadOneGo_exn_retry f it n a le msg hf htr ha2,
              uploadOneGo_exn_retry g it n a le msg he htr ha2,
              ih (a + 1) (some (strTruncate msg 100))]
          · rw [uploadOneGo_exn_stop f it n a le msg hf (Or.inr ha2),
              uploadOneGo_exn_stop g it n a le msg he (Or.inr ha2)]
        · have htr' := Bool.eq_false_iff.mpr htr
          rw [uploadOneGo_exn_stop f it n a le msg hf (Or.inl htr'),
            uploadOneGo_exn_stop g it n a le msg he (Or.inl htr')]

theorem uploadOne_congr (f g : UploadFunc) (it : Item)
    (h : ∀ k, f it k = g it k) : uploadOne f it = uploadOne g it :=
  uploadOneGo_congr f g it h MAX_RETRIES 0 none

theorem upload_batch_sync_outcomes (f : UploadFunc) (st : UploaderState)
    (items : List Item) (p : Nat) :
    (upload_batch_sync f st items p).2 = items.map fun it =>
      if shouldSkip st it.itemId then .skipped it
      else .delivered it (uploadOne f it) := by
  simp only [upload_batch_sync]
  split
  · next hemp =>
      have hall : ∀ it ∈ items, shouldSkip st it.itemId = true := by
        intro it hit
        have := List.filter_eq_nil_iff.mp (List.isEmpty_iff.mp hemp) it hit
        simpa using this
      refine (List.map_congr_left ?_).symm
      intro it hit
      rw [if_pos (hall it hit)]
  · rfl

theorem upload_batch_sync_item_of (f : UploadFunc) (st : UploaderState)
    (items : List Item) (p : Nat) :
    ((upload_batch_sync f st items p).2).map ItemOutcome.item = items := by
  rw [upload_batch_sync_outcomes, List.map_map]
  refine List.map_congr_left ?_ |>.trans (List.map_id items)
  intro it _
  by_cases h : shouldSkip st it.itemId = true
  · simp [Function.comp, h, ItemOutcome.item]
  · simp [Function.comp, h, ItemOutcome.item]

theorem upload_batch_sync_delivered (f : UploadFunc) (st : UploaderState)
    (items : List Item) (p : Nat) :
    ∀ o ∈ (upload_batch_sync f st items p).2, ∀ it t,
      o = .delivered it t →
        it.itemId ∉ st.existing_ids ∧ t = uploadOne f it := by
  rw [upload_batch_sync_outcomes]
  intro o ho it t hot
  subst hot
  rcases List.mem_map.mp ho with ⟨it', hmem, heq⟩
  by_cases h : shouldSkip st it'.itemId = true
  · rw [if_pos h] at heq
    exact ItemOutcome.noConfusion heq
  · rw [if_neg h] at heq
    injection heq with h1 h2
    subst h1
    exact ⟨by simpa [shouldSkip] using h, h2.symm⟩

theorem upload_batch_sync_le (f : UploadFunc) (st : UploaderState)
    (items : List Item) (p : Nat) :
    st.stats.le (upload_batch_sync f st items p).1.stats ∧
    st.existing_ids ⊆ (upload_batch_sync f st items p).1.existing_ids ∧
    (upload_batch_sync f st items p).1.upload_queue = st.upload_queue ∧
    (upload_batch_sync f st items p).1.session_started = st.session_started := by
  simp only [upload_batch_sync]
  split
  · refine ⟨⟨Nat.le_succ _, Nat.le_refl _, Nat.le_refl _, Nat.le_refl _,
      Nat.le_add_right _ _, Nat.le_refl _, Nat.le_refl _⟩,
      Finset.Subset.refl _, rfl, rfl⟩
  · dsimp only
    have hfold := tallyFold_le (fun it => (uploadOne f it).result)
      (items.filter fun it => !shouldSkip st it.itemId)
      (⟨{ pages := st.stats.pages + 1,
          items := st.stats.items +
            (items.filter fun it => !shouldSkip st it.itemId).length,
          success := st.stats.success, failed := st.stats.failed,
          skipped := st.stats.skipped +
            (items.filter fun it => shouldSkip st it.itemId).length,
          photos_added := st.stats.photos_added,
          photos_failed := st.stats.photos_failed },
        st.existing_ids⟩ : StreamingStats × Finset String)
    refine ⟨StreamingStats.le_trans ?_ hfold.1, hfold.2, rfl, rfl⟩
    exact ⟨Nat.le_succ _, Nat.le_add_right _ _, Nat.le_refl _, Nat.le_refl _,
      Nat.le_add_right _ _, Nat.le_refl _, Nat.le_refl _⟩

theorem processBatches_item_of (f : UploadFunc) :
    ∀ (q : List (List Item × Nat)) (st : UploaderState),
      ((processBatches f st q).2).map ItemOutcome.item =
        (q.map Prod.fst).flatten := by
  intro q
  induction q with
  | nil => intro st; rfl
  | cons b rest ih =>
      intro st
      simp only [processBatches, List.map_append, List.map_cons,
        List.flatten_cons, upload_batch_sync_item_of, ih]

theorem processBatches_delivered (f : UploadFunc) :
    ∀ (q : List (List Item × Nat)) (st : UploaderState),
      ∀ o ∈ (processBatches f st q).2, ∀ it t,
        o = .delivered it t → t = uploadOne f it := by
  intro q
  induction q with
  | nil => intro st o ho; exact absurd ho (List.not_mem_nil o)
  | cons b rest ih =>
      intro st o ho it t hot
      simp only [processBatches, List.mem_append] at ho
      rcases ho with ho | ho
      · exact (upload_batch_sync_delivered f st b.1 b.2 o ho it t hot).2
      · exact ih _ o ho it t hot

theorem processBatches_le (f : UploadFunc) :
    ∀ (q : List (List Item × Nat)) (st : UploaderState),
      st.stats.le (processBatches f st q).1.stats ∧
      st.existing_ids ⊆ (processBatches f st q).1.existing_ids ∧
      (processBatches f st q).1.upload_queue = st.upload_queue := by
  intro q
  induction q with
  | nil =>
      intro st
      exact ⟨StreamingStats.le_refl _, Finset.Subset.refl _, rfl⟩
  | cons b rest ih =>
      intro st
      have h1 := upload_batch_sync_le f st b.1 b.2
      have h2 := ih (upload_batch_sync f st b.1 b.2).1
      exact ⟨StreamingStats.le_trans h1.1 h2.1,
        Finset.Subset.trans h1.2.1 h2.2.1,
        h2.2.2.trans h1.2.2.1⟩

theorem iterRun_spec (stopAt : Nat → Bool) :
    ∀ (xs : List α) (i : Nat),
      (iterRun stopAt i xs).1 = xs.take (iterRun stopAt i xs).1.length ∧
      (∀ k < (iterRun stopAt i xs).1.length, stopAt (i + k) = false) ∧
      ((iterRun stopAt i xs).2.2 = true →
        stopAt (i + (iterRun stopAt i xs).1.length) = true) ∧
      ((iterRun stopAt i xs).2.2 = false → (iterRun stopAt i xs).1 = xs) ∧
      (iterRun stopAt i xs).2.1 =
        (iterRun stopAt i xs).1.length +
          (if (iterRun stopAt i xs).2.2 then 1 else 0) := by
  intro xs
  induction xs with
  | nil =>
      intro i
      exact ⟨rfl, fun k hk => absurd hk (Nat.not_lt_zero k),
        fun h => Bool.noConfusion h, fun _ => rfl, rfl⟩
  | cons x rest ih =>
      intro i
      obtain ⟨ih1, ih2, ih3, ih4, ih5⟩ := ih (i + 1)
      by_cases hs : stopAt i = true
      · simp only [iterRun, if_pos hs]
        exact ⟨rfl, fun k hk => absurd hk (Nat.not_lt_zero k), fun _ => hs,
          fun h => Bool.noConfusion h, rfl⟩
      · have hs' : stopAt i = false := Bool.eq_false_iff.mpr hs
        simp only [iterRun, if_neg hs]
        refine ⟨?_, ?_, ?_, ?_, ?_⟩
        · simp only [List.length_cons, List.take_succ_cons]
          exact congrArg (x :: ·) ih1
        · intro k hk
          cases k with
          | zero => simpa using hs'
          | succ k =>
              have hk' : k < (iterRun stopAt (i + 1) rest).1.length := by
                simpa [Nat.succ_lt_succ_iff] using hk
              have harith : i + (k + 1) = (i + 1) + k := by omega
              rw [harith]
              exact ih2 k hk'
        · intro h
          simp only [List.length_cons]
          have harith : i + ((iterRun stopAt (i + 1) rest).1.length + 1) =
              (i + 1) + (iterRun stopAt (i + 1) rest).1.length := by omega
          rw [harith]
          exact ih3 h
        · intro h
          exact congrArg (x :: ·) (ih4 h)
        · simp only [List.length_cons]
          rcases hb : (iterRun stopAt (i + 1) rest).2.2 with _ | _ <;>
            rw [hb] at ih5 <;> simp [ih5]

theorem upload_batch_sync_single (f : UploadFunc) (st : UploaderState)
    (it : Item) (p : Nat) (h : shouldSkip st it.itemId = false)
    (hres : (uploadOne f it).result.success = false) :
    (upload_batch_sync f st [it] p).1.stats.failed = st.stats.failed + 1 ∧
    (upload_batch_sync f st [it] p).1.stats.success = st.stats.success := by
  simp [upload_batch_sync, h, tallyOne, hres]

/-! ### The claims -/

/-- C1: after a graceful `finish(force=false)` following any sequence of
enqueues, the queue is empty, the finishing pass dispatches exactly the
records of every still-queued batch in FIFO order, and every record that is
handed to a delivery worker (i.e. whose identifier was not in the
deduplication set at dispatch time) has the Delivery Function invoked for it
at least once before `finish` returns. -/
theorem graceful_finish_attempts_every_record (f : UploadFunc)
    (st : UploaderState) :
    (finishModel f st false).1.upload_queue = [] ∧
    ((finishModel f st false).2).map ItemOutcome.item =
      (st.upload_queue.map Prod.fst).flatten ∧
    ∀ o ∈ (finishModel f st false).2, ∀ it t,
      o = .delivered it t → 1 ≤ t.calls := by
  refine ⟨?_, ?_, ?_⟩
  · simpa [finishModel] using
      (processBatches_le f st.upload_queue { st with upload_queue := [] }).2.2
  · simpa [finishModel] using
      processBatches_item_of f st.upload_queue { st with upload_queue := [] }
  · intro o ho it t hot
    have ht := processBatches_delivered f st.upload_queue
      { st with upload_queue := [] } o (by simpa [finishModel] using ho) it t hot
    rw [ht]
    exact uploadOne_calls_pos f it

/-- C6: `finish(force=true)` (and `abort`) discards every still-queued
batch: no record of them is attempted (the finishing pass produces no
outcomes), the queue is emptied, and the returned statistics and
deduplication set are exactly those accumulated by what was already
attempted. -/
theorem forced_abort_discards_queue (f : UploadFunc) (st : UploaderState) :
    finishModel f st true = ({ st with upload_queue := [] }, []) ∧
    (finishModel f st true).1.stats = st.stats ∧
    (finishModel f st true).1.existing_ids = st.existing_ids ∧
    (finishModel f st true).2 = [] ∧
    abortModel st = { st with upload_queue := [] } :=
  ⟨rfl, rfl, rfl, rfl, rfl⟩

/-- C7: every pipeline operation (`add_existing_ids`, `upload_batch`, a
batch dispatch with its per-item deliveries, `abort`, `finish` in either
mode) only ever increases each statistics counter and only ever grows the
deduplication set. -/
theorem counters_monotone_ids_grow (f : UploadFunc) (st : UploaderState)
    (items : List Item) (p : Nat) (ids : Finset String) (b : Bool) :
    (st.stats.le (add_existing_ids st ids).stats ∧
      st.existing_ids ⊆ (add_existing_ids st ids).existing_ids) ∧
    (st.stats.le (upload_batch st items p).stats ∧
      st.existing_ids ⊆ (upload_batch st items p).existing_ids) ∧
    (st.stats.le (upload_batch_sync f st items p).1.stats ∧
      st.existing_ids ⊆ (upload_batch_sync f st items p).1.existing_ids) ∧
    (st.stats.le (abortModel st).stats ∧
      st.existing_ids ⊆ (abortModel st).existing_ids) ∧
    (st.stats.le (finishModel f st b).1.stats ∧
      st.existing_ids ⊆ (finishModel f st b).1.existing_ids) := by
  refine ⟨⟨StreamingStats.le_refl _, Finset.subset_union_left⟩, ?_, ?_, ?_, ?_⟩
  · have : (upload_batch st items p).stats = st.stats ∧
        (upload_batch st items p).existing_ids = st.existing_ids := by
      unfold upload_batch; split <;> exact ⟨rfl, rfl⟩
    rw [this.1, this.2]
    exact ⟨StreamingStats.le_refl _, Finset.Subset.refl _⟩
  · exact ⟨(upload_batch_sync_le f st items p).1,
      (upload_batch_sync_le f st items p).2.1⟩
  · exact ⟨StreamingStats.le_refl _, Finset.Subset.refl _⟩
  · cases b
    · exact ⟨(processBatches_le f st.upload_queue { st with upload_queue := [] }).1,
        (processBatches_le f st.upload_queue { st with upload_queue := [] }).2.1⟩
    · exact ⟨StreamingStats.le_refl _, Finset.Subset.refl _⟩

/-- C8: enqueuing an empty batch is a complete no-op on the uploader state:
no statistics change, nothing queued, the session is not marked started and
the dispatcher thread is not spawned. -/
theorem empty_enqueue_noop (st : UploaderState) (p : Nat) :
    upload_batch st [] p = st := rfl

/-- C2: when every call of the Delivery Function for a record raises an
exception whose truncated message matches the transient classification,
`_upload_one` invokes the Delivery Function exactly `MAX_RETRIES` (3) times,
the record fails, the sleeps before the two retries are
`RETRY_DELAY * 1` and `RETRY_DELAY * 2`, and dispatching the record bumps
`failed` by one while leaving `success` unchanged. -/
theorem transient_retry_bound (f : UploadFunc) (st : UploaderState)
    (it : Item) (p : Nat) (msgs : Nat → String)
    (hf : ∀ k, k < MAX_RETRIES → f it k = .exn (msgs k))
    (ht : ∀ k, k < MAX_RETRIES →
      isTransientMsg (strTruncate (msgs k) 100) = true)
    (hns : it.itemId ∉ st.existing_ids) :
    (uploadOne f it).calls = MAX_RETRIES ∧
    (uploadOne f it).result.success = false ∧
    (uploadOne f it).sleeps = [RETRY_DELAY * 1, RETRY_DELAY * 2] ∧
    (upload_batch_sync f st [it] p).1.stats.failed = st.stats.failed + 1 ∧
    (upload_batch_sync f st [it] p).1.stats.success = st.stats.success := by
  have e0 : uploadOne f it =
      ⟨(uploadOneGo f it 2 (0 + 1) (some (strTruncate (msgs 0) 100))).result,
       (uploadOneGo f it 2 (0 + 1) (some (strTruncate (msgs 0) 100))).calls + 1,
       RETRY_DELAY * (((0 : Nat) : ℚ) + 1) ::
         (uploadOneGo f it 2 (0 + 1) (some (strTruncate (msgs 0) 100))).sleeps⟩ :=
    uploadOneGo_exn_retry f it 2 0 none (msgs 0) (hf 0 (by decide))
      (ht 0 (by decide)) (by decide)
  have e1 : uploadOneGo f it 2 (0 + 1) (some (strTruncate (msgs 0) 100)) =
      ⟨(uploadOneGo f it 1 (0 + 1 + 1)
          (some (strTruncate (msgs (0 + 1)) 100))).result,
       (uploadOneGo f it 1 (0 + 1 + 1)
          (some (strTruncate (msgs (0 + 1)) 100))).calls + 1,
       RETRY_DELAY * (((0 + 1 : Nat) : ℚ) + 1) ::
         (uploadOneGo f it 1 (0 + 1 + 1)
            (some (strTruncate (msgs (0 + 1)) 100))).sleeps⟩ :=
    uploadOneGo_exn_retry f it 1 (0 + 1) (some (strTruncate (msgs 0) 100))
      (msgs (0 + 1)) (hf (0 + 1) (by decide)) (ht (0 + 1) (by decide))
      (by decide)
  have e2 : uploadOneGo f it 1 (0 + 1 + 1)
        (some (strTruncate (msgs (0 + 1)) 100)) =
      ⟨⟨it.itemId, false, 0, 0, some (strTruncate (msgs (0 + 1 + 1)) 100)⟩,
        1, []⟩ :=
    uploadOneGo_exn_stop f it 0 (0 + 1 + 1)
      (some (strTruncate (msgs (0 + 1)) 100)) (msgs (0 + 1 + 1))
      (hf (0 + 1 + 1) (by decide)) (Or.inr (by decide))
  have key : uploadOne f it =
      ⟨⟨it.itemId, false, 0, 0, some (strTruncate (msgs (0 + 1 + 1)) 100)⟩,
        3, [RETRY_DELAY * 1, RETRY_DELAY * 2]⟩ := by
    rw [e0, e1, e2]
    norm_num
  have hskip : shouldSkip st it.itemId = false := by simp [shouldSkip, hns]
  have hsucc : (uploadOne f it).result.success = false := by rw [key]
  have hb := upload_batch_sync_single f st it p hskip hsucc
  refine ⟨?_, hsucc, ?_, hb.1, hb.2⟩
  · rw [key]; rfl
  · rw [key]

def witTransientFunc : UploadFunc := fun _ _ => .exn "503"

def witItem : Item := ⟨some "a", ""⟩

/-- Witness for `transient_retry_bound` at a concrete Delivery Function that
always raises a "503" exception. -/
theorem transient_retry_bound_witness :
    (uploadOne witTransientFunc witItem).calls = MAX_RETRIES ∧
    (uploadOne witTransientFunc witItem).result.success = false ∧
    (uploadOne witTransientFunc witItem).sleeps =
      [RETRY_DELAY * 1, RETRY_DELAY * 2] ∧
    (upload_batch_sync witTransientFunc initState [witItem] 1).1.stats.failed =
      initState.stats.failed + 1 ∧
    (upload_batch_sync witTransientFunc initState [witItem] 1).1.stats.success =
      initState.stats.success :=
  transient_retry_bound witTransientFunc initState witItem 1 (fun _ => "503")
    (fun _ _ => rfl)
    (fun _ _ => show isTransientMsg (strTruncate "503" 100) = true by decide)
    (by decide)

/-- C3: when the first call of the Delivery Function for a record either
raises an exception whose truncated message matches none of the transient
markers, or returns `success=False`, `_upload_one` invokes the Delivery
Function exactly once, the record fails, and dispatching it bumps `failed`
by one while leaving `success` unchanged. -/
theorem nontransient_single_attempt (f : UploadFunc) (st : UploaderState)
    (it : Item) (p : Nat)
    (h : (∃ msg, f it 0 = .exn msg ∧
            isTransientMsg (strTruncate msg 100) = false) ∨
         ∃ pa pf err, f it 0 = .ret false pa pf err)
    (hns : it.itemId ∉ st.existing_ids) :
    (uploadOne f it).calls = 1 ∧
    (uploadOne f it).result.success = false ∧
    (upload_batch_sync f st [it] p).1.stats.failed = st.stats.failed + 1 ∧
    (upload_batch_sync f st [it] p).1.stats.success = st.stats.success := by
  have key : (uploadOne f it).calls = 1 ∧
      (uploadOne f it).result.success = false := by
    rcases h with ⟨msg, he, htr⟩ | ⟨pa, pf, err, he⟩
    · have e : uploadOne f it =
          ⟨⟨it.itemId, false, 0, 0, some (strTruncate msg 100)⟩, 1, []⟩ :=
        uploadOneGo_exn_stop f it 2 0 none msg he (Or.inl htr)
      rw [e]; exact ⟨rfl, rfl⟩
    · have e : uploadOne f it =
          ⟨⟨it.itemId, false, 0, 0, some (err.getD "upload failed")⟩, 1, []⟩ :=
        uploadOneGo_ret_false f it 2 0 none pa pf err he
      rw [e]; exact ⟨rfl, rfl⟩
  have hskip : shouldSkip st it.itemId = false := by simp [shouldSkip, hns]
  have hb := upload_batch_sync_single f st it p hskip key.2
  exact ⟨key.1, key.2, hb.1, hb.2⟩

def witPermFunc : UploadFunc := fun _ _ => .ret false 0 0 (some "perm")

def witItemB : Item := ⟨some "b", ""⟩

/-- Witness for `nontransient_single_attempt` at a concrete Delivery
Function that returns a permanent failure. -/
theorem nontransient_single_attempt_witness :
    (uploadOne witPermFunc witItemB).calls = 1 ∧
    (uploadOne witPermFunc witItemB).result.success = false ∧
    (upload_batch_sync witPermFunc initState [witItemB] 1).1.stats.failed =
      initState.stats.failed + 1 ∧
    (upload_batch_sync witPermFunc initState [witItemB] 1).1.stats.success =
      initState.stats.success :=
  nontransient_single_attempt witPermFunc initState witItemB 1
    (Or.inr ⟨0, 0, some "perm", rfl⟩) (by decide)

def lateMarkerMsg : String := String.mk (List.replicate 100 'x' ++ ['5', '0', '3'])

def lateMarkerFunc : UploadFunc := fun _ _ => .exn lateMarkerMsg

def lateMarkerItem : Item := ⟨some "d", ""⟩

/-- C10: the transient classification is applied to `str(e)[:100]`, so an
exception whose message contains "503" only from position 100 on is not
classified as transient: the Delivery Function is invoked exactly once and
the record is not retried. -/
theorem truncated_error_classification :
    strHasSub lateMarkerMsg "503" = true ∧
    strHasSub (strTruncate lateMarkerMsg 100) "503" = false ∧
    isTransientMsg (strTruncate lateMarkerMsg 100) = false ∧
    (uploadOne lateMarkerFunc lateMarkerItem).calls = 1 ∧
    (uploadOne lateMarkerFunc lateMarkerItem).result.success = false := by
  decide

def scenarioItems : List Item := [⟨some "1", ""⟩, ⟨some "2", ""⟩, ⟨some "3", ""⟩]

def alwaysOK : UploadFunc := fun _ _ => .ret true 0 0 none

def scenarioFinal : UploaderState :=
  (finishModel alwaysOK
    (upload_batch (add_existing_ids initState {"1", "2"}) scenarioItems 1)
    false).1

/-- C4: a record whose stringified identifier is in the deduplication set at
dispatch time is never handed to a delivery worker (so the Delivery
Function is never invoked for it) and is recorded as skipped; in
particular, seeding the set with `{"1","2"}` and gracefully finishing the
batch `[{"id":"1"},{"id":"2"},{"id":"3"}]` under an always-succeeding
Delivery Function yields
`items=1, success=1, skipped=2, failed=0`. -/
theorem dedup_never_invoked (f : UploadFunc) (st : UploaderState)
    (items : List Item) (p : Nat) :
    (∀ o ∈ (upload_batch_sync f st items p).2, ∀ it t,
        o = .delivered it t → it.itemId ∉ st.existing_ids) ∧
    (∀ it ∈ items, it.itemId ∈ st.existing_ids →
        ItemOutcome.skipped it ∈ (upload_batch_sync f st items p).2) ∧
    scenarioFinal.stats =
      { pages := 1, items := 1, success := 1, failed := 0, skipped := 2,
        photos_added := 0, photos_failed := 0 } := by
  refine ⟨?_, ?_, by decide⟩
  · intro o ho it t hot
    exact (upload_batch_sync_delivered f st items p o ho it t hot).1
  · intro it hit hmem
    rw [upload_batch_sync_outcomes]
    refine List.mem_map.mpr ⟨it, hit, ?_⟩
    rw [if_pos (by simp [shouldSkip, hmem])]

def witOKFunc : UploadFunc := fun _ _ => .ret true 0 0 none

/-!
Extended model for the worker-escape path of `_upload_batch_sync`
(upload.py 252-265) and `_upload_worker` (upload.py 187-202).  `_upload_one`
catches every `Exception` raised by `upload_func` inside its `try`, but an
exception can still escape a delivery worker: `str(item.get("id", ""))` at
upload.py line 148 runs outside the `try` and can raise.  Such an exception
is stored in the worker's future; `_upload_batch_sync` consumes futures in
`as_completed` (completion) order, and `future.result()` (upload.py 256)
re-raises the stored exception, aborting the tally loop: results whose
futures were not yet consumed are never tallied (the pool context exit
still waits for those workers to finish).  The escaped exception then
propagates out of `_upload_batch_sync` into `_upload_worker`, whose
`except Exception` (upload.py 201-202) logs it and continues with the next
queued batch (skipping `task_done`).  The model makes the worker behaviour
and the unspecified completion order explicit parameters.
-/

/-- What one delivery worker's future holds after the worker finishes:
either the `_upload_one` trace returned normally, or the exception that
escaped `_upload_one` (e.g. raised at upload.py line 148, outside its
`try`), to be re-raised by `future.result()`. -/
inductive WorkerOutcome where
  | done (t : OneTrace)
  | crash (msg : String)
deriving Repr, DecidableEq

/-- Whether a worker's future re-raises when its result is read. -/
def WorkerOutcome.isCrash : WorkerOutcome → Bool
  | .done _ => false
  | .crash _ => true

/-- The `as_completed` tally loop of `_upload_batch_sync` (upload.py
255-265), consuming futures in the given completion order: each normal
result is tallied; the first crashing `future.result()` re-raises, aborting
the loop with the accumulated tally and the escaped message. -/
def consumeLoop (w : Item → WorkerOutcome) :
    List Item → StreamingStats × Finset String →
      (StreamingStats × Finset String) × Option String
  | [], acc => (acc, none)
  | it :: rest, acc =>
      match w it with
      | .done t => consumeLoop w rest (tallyOne acc.1 acc.2 t.result)
      | .crash msg => (acc, some msg)

/-- `_upload_batch_sync` with the worker-escape path: identical to
`upload_batch_sync` up to the worker pool, then the futures of the
non-skipped records are consumed in the completion order `order`; the
second component is the exception escaping `_upload_batch_sync`, if any. -/
def crashBatchSync (w : Item → WorkerOutcome) (st : UploaderState)
    (items : List Item) (order : List Item) (_page_num : Nat) :
    UploaderState × Option String :=
  let s0 := { st.stats with pages := st.stats.pages + 1 }
  let toUpload := items.filter (fun it => !shouldSkip st it.itemId)
  let nSkip := (items.filter (fun it => shouldSkip st it.itemId)).length
  let s1 := { s0 with skipped := s0.skipped + nSkip }
  if toUpload.isEmpty then ({ st with stats := s1 }, none)
  else
    let s2 := { s1 with items := s1.items + toUpload.length }
    let r := consumeLoop w order (s2, st.existing_ids)
    ({ st with stats := r.1.1, existing_ids := r.1.2 }, r.2)

/-- The `_upload_worker` loop over queued batches (each with its completion
order) in the extended model: an exception escaping `_upload_batch_sync` is
caught by `except Exception` (upload.py 201-202), logged, and the loop
continues with the next batch. -/
def processBatchesW (w : Item → WorkerOutcome) (st : UploaderState) :
    List ((List Item × Nat) × List Item) → UploaderState
  | [] => st
  | ((items, p), order) :: rest =>
      processBatchesW w (crashBatchSync w st items order p).1 rest

theorem consumeLoop_crash (w : Item → WorkerOutcome) (c : Item)
    (msg : String) (hc : w c = .crash msg) :
    ∀ pre : List Item, (∀ it ∈ pre, (w it).isCrash = false) →
      ∀ (post : List Item) (acc : StreamingStats × Finset String),
        consumeLoop w (pre ++ c :: post) acc =
          ((consumeLoop w pre acc).1, some msg) := by
  intro pre
  induction pre with
  | nil =>
      intro _ post acc
      simp only [List.nil_append, consumeLoop, hc]
  | cons x xs ih =>
      intro hpre post acc
      have hx : (w x).isCrash = false := hpre x (List.mem_cons_self x xs)
      rcases hw : w x with t | m
      · simp only [List.cons_append, consumeLoop, hw]
        exact ih (fun it hit => hpre it (List.mem_cons_of_mem x hit)) post _
      · rw [hw] at hx
        exact absurd hx (by simp [WorkerOutcome.isCrash])

theorem consumeLoop_all_done (g : Item → OneTrace) :
    ∀ (l : List Item) (acc : StreamingStats × Finset String),
      consumeLoop (fun it => .done (g it)) l acc =
        (l.foldl (fun a it => tallyOne a.1 a.2 (g it).result) acc, none) := by
  intro l
  induction l with
  | nil => intro acc; rfl
  | cons x xs ih =>
      intro acc
      simp only [consumeLoop, List.foldl_cons]
      exact ih _

theorem crashBatchSync_refines (f : UploadFunc) (st : UploaderState)
    (items : List Item) (p : Nat) :
    crashBatchSync (fun it => .done (uploadOne f it)) st items
      (items.filter fun it => !shouldSkip st it.itemId) p =
      ((upload_batch_sync f st items p).1, none) := by
  simp only [crashBatchSync, upload_batch_sync]
  split
  · rfl
  · rw [consumeLoop_all_done]

def cwWorker : Item → WorkerOutcome := fun it =>
  if it = witItem then .crash "boom"
  else .done ⟨⟨it.itemId, true, 0, 0, none⟩, 1, []⟩

/-- C5 counterexample: in the batch `[a, b]` the worker for `a` escapes
with an exception and its future is consumed first; the sibling worker for
`b` completed with a success, yet its result is never tallied into
Statistics (`success` and `failed` both stay 0 although both records were
submitted), and the exception escapes `_upload_batch_sync` — refuting the
claim that an escaping worker exception leaves the other workers' results
tallied. -/
theorem worker_crash_not_tallied :
    cwWorker witItemB = .done ⟨⟨"b", true, 0, 0, none⟩, 1, []⟩ ∧
    (crashBatchSync cwWorker initState [witItem, witItemB]
        [witItem, witItemB] 1).2 = some "boom" ∧
    (crashBatchSync cwWorker initState [witItem, witItemB]
        [witItem, witItemB] 1).1.stats.items = 2 ∧
    (crashBatchSync cwWorker initState [witItem, witItemB]
        [witItem, witItemB] 1).1.stats.success = 0 ∧
    (crashBatchSync cwWorker initState [witItem, witItemB]
        [witItem, witItemB] 1).1.stats.failed = 0 := by
  decide

/-- C5 (amended): an exception escaping one delivery worker does not
terminate the dispatcher — it propagates out of `_upload_batch_sync`, is
caught at the dispatcher boundary, logged, and every subsequently dequeued
batch is still processed — and the other workers of the crashed batch still
run to completion, but only the results consumed from `as_completed` before
the crashing future are tallied into Statistics; the results not yet
consumed are dropped.  Workers that do not escape behave exactly as
`_upload_one` does in the crash-free model. -/
theorem worker_escape_caught_at_dispatcher (w : Item → WorkerOutcome)
    (f : UploadFunc) (st : UploaderState) (items : List Item) (p : Nat)
    (pre post : List Item) (c : Item) (msg : String)
    (q : List ((List Item × Nat) × List Item))
    (hc : w c = .crash msg)
    (hpre : ∀ it ∈ pre, (w it).isCrash = false)
    (hne : (items.filter fun it => !shouldSkip st it.itemId).isEmpty = false) :
    crashBatchSync w st items (pre ++ c :: post) p =
      ((crashBatchSync w st items pre p).1, some msg) ∧
    processBatchesW w st (((items, p), pre ++ c :: post) :: q) =
      processBatchesW w (crashBatchSync w st items (pre ++ c :: post) p).1 q ∧
    crashBatchSync (fun it => .done (uploadOne f it)) st items
      (items.filter fun it => !shouldSkip st it.itemId) p =
      ((upload_batch_sync f st items p).1, none) := by
  refine ⟨?_, rfl, crashBatchSync_refines f st items p⟩
  simp only [crashBatchSync, hne, Bool.false_eq_true, if_false]
  rw [consumeLoop_crash w c msg hc pre hpre post]

/-- Witness for `worker_escape_caught_at_dispatcher` at the concrete
crashing worker of the counterexample, with an empty consumed prefix. -/
theorem worker_escape_caught_at_dispatcher_witness :
    crashBatchSync cwWorker initState [witItem, witItemB]
        ([] ++ witItem :: [witItemB]) 1 =
      ((crashBatchSync cwWorker initState [witItem, witItemB] [] 1).1,
        some "boom") ∧
    processBatchesW cwWorker initState
        ((([witItem, witItemB], 1), [] ++ witItem :: [witItemB]) :: []) =
      processBatchesW cwWorker
        (crashBatchSync cwWorker initState [witItem, witItemB]
          ([] ++ witItem :: [witItemB]) 1).1 [] ∧
    crashBatchSync (fun it => .done (uploadOne witOKFunc it)) initState
        [witItem, witItemB]
        ([witItem, witItemB].filter fun it =>
          !shouldSkip initState it.itemId) 1 =
      ((upload_batch_sync witOKFunc initState [witItem, witItemB] 1).1,
        none) :=
  worker_escape_caught_at_dispatcher cwWorker witOKFunc initState
    [witItem, witItemB] 1 [] [witItemB] witItem "boom" [] (by decide)
    (fun it hit => absurd hit (List.not_mem_nil it)) (by decide)

/-- C9: `TaskRunner.iterate` checks for interrupts before yielding each
element (the number of checks is the number of yields, plus one when a check
signalled stop), yields the elements of the sequence in order (the yielded
list is the corresponding initial segment of the sequence, and the whole
sequence when no check signalled stop), and a stop signal discards the
remaining elements without yielding them. -/
theorem iterate_checks_before_each_yield {α : Type} (stopAt : Nat → Bool)
    (xs : List α) :
    (iterRun stopAt 0 xs).1 = xs.take (iterRun stopAt 0 xs).1.length ∧
    (∀ k < (iterRun stopAt 0 xs).1.length, stopAt k = false) ∧
    ((iterRun stopAt 0 xs).2.2 = true →
      stopAt (iterRun stopAt 0 xs).1.length = true) ∧
    ((iterRun stopAt 0 xs).2.2 = false → (iterRun stopAt 0 xs).1 = xs) ∧
    (iterRun stopAt 0 xs).2.1 =
      (iterRun stopAt 0 xs).1.length +
        (if (iterRun stopAt 0 xs).2.2 then 1 else 0) := by
  have h := iterRun_spec stopAt xs 0
  simpa using h

end Unrealon
